import Mathlib

/-!
Verification of the AeroSky drone-compliance platform core against its
specification.

The repository ships the frontend, the Prisma admin API routes and the
PostgreSQL schema (enum types, `flight_logs`, `permission_artifacts`,
`compliance_violations`, `audit_log` and its append-only rules).  The Python
backend services named by the README (`npnt_validator.py`, `log_ingestor.py`,
the zone classifier) are not among the repository's files, so those operations
are modelled from the specification text, over the data model taken from the
schema; each such definition says so in its doc comment.
-/

namespace AeroSky

/-- Schema enum `zone_type`: airspace zone categories. -/
inductive ZoneType
  | Green
  | Yellow
  | Red
deriving DecidableEq, Repr

/-- Schema enum `drone_status`. -/
inductive DroneStatus
  | Draft
  | Registered
  | Active
  | Transfer_Pending
  | Deregistered
  | Lost
  | Damaged
deriving DecidableEq, Repr

/-- Schema enum `pilot_status`. -/
inductive PilotStatus
  | Active
  | Suspended
  | Expired
  | Revoked
deriving DecidableEq, Repr

/-- Schema enum `certification_status`. -/
inductive CertificationStatus
  | Draft
  | Submitted
  | ATE_Review
  | Certified
  | Suspended
  | Revoked
deriving DecidableEq, Repr

/-- Schema enum `maintenance_status`. -/
inductive MaintenanceStatus
  | Open
  | InProgress
  | Completed
  | Verified
deriving DecidableEq, Repr

/-- Schema enum `drone_class` (weight classes, Rule 5). -/
inductive DroneClass
  | Nano
  | Micro
  | Small
  | Medium
  | Large
deriving DecidableEq, Repr

/-- Type certificate fields the gate reads (schema table `type_certificates`). -/
structure TypeCertificate where
  certification_status : CertificationStatus
  npnt_compliant : Bool
  expiry_date : Int
  operating_altitude_max_ft : Int
  weight_class : DroneClass
deriving DecidableEq, Repr

/-- Maintenance item fields the gate reads (schema table `maintenance_logs`). -/
structure MaintenanceItem where
  is_critical : Bool
  status : MaintenanceStatus
deriving DecidableEq, Repr

/-- Drone fields the gate reads (schema table `drones`). -/
structure Drone where
  status : DroneStatus
  uin : Option String
  insurance_expiry_date : Option Int
  maintenance_items : List MaintenanceItem
deriving DecidableEq, Repr

/-- Pilot fields the gate reads (schema table `pilots`). -/
structure Pilot where
  status : PilotStatus
  expiry_date : Int
  class_rating : DroneClass
deriving DecidableEq, Repr

/-- Flight plan fields the gate reads (schema table `flight_plans`). -/
structure FlightPlan where
  max_altitude_ft : Int
deriving DecidableEq, Repr

/-- Zone classification result fed to the gate. -/
structure ZoneResult where
  zone : ZoneType
  touched_zone_ids : List Nat
deriving DecidableEq, Repr

/-- Shared read-only context the nine checks are evaluated over: the five gate
inputs plus the evaluation time and the configured altitude minimum. -/
structure GateContext where
  drone : Drone
  pilot : Pilot
  type_certificate : TypeCertificate
  flight_plan : FlightPlan
  zone_result : ZoneResult
  now : Int
  min_altitude_ft : Int
deriving DecidableEq, Repr

/-- The nine NPNT check identifiers, one per precondition of the gate. -/
inductive CheckId
  | drone_status
  | uin_valid
  | type_certificate
  | pilot_rpc
  | insurance
  | maintenance
  | zone_status
  | altitude_limits
  | pilot_rating
deriving DecidableEq, Repr

/-- Ordering of weight classes used by the pilot-rating check: a pilot must be
rated equal-or-higher than the class flown. -/
def classRank : DroneClass → Nat
  | DroneClass.Nano => 0
  | DroneClass.Micro => 1
  | DroneClass.Small => 2
  | DroneClass.Medium => 3
  | DroneClass.Large => 4

/-- Modelled from the spec: the backend NPNT engine (`npnt_validator.py`) is not
among the repository's files; each of the nine checks follows spec section 4.2
over the schema's data model. -/
def checkPasses (ctx : GateContext) : CheckId → Bool
  | CheckId.drone_status => ctx.drone.status == DroneStatus.Active
  | CheckId.uin_valid =>
      match ctx.drone.uin with
      | some u => !(u == "")
      | none => false
  | CheckId.type_certificate =>
      ctx.type_certificate.certification_status == CertificationStatus.Certified
        && ctx.type_certificate.npnt_compliant
        && decide (ctx.now ≤ ctx.type_certificate.expiry_date)
  | CheckId.pilot_rpc =>
      ctx.pilot.status == PilotStatus.Active && decide (ctx.now ≤ ctx.pilot.expiry_date)
  | CheckId.insurance =>
      match ctx.drone.insurance_expiry_date with
      | some d => decide (ctx.now ≤ d)
      | none => false
  | CheckId.maintenance =>
      ctx.drone.maintenance_items.all
        (fun m => !(m.is_critical && !(m.status == MaintenanceStatus.Completed)))
  | CheckId.zone_status => !(ctx.zone_result.zone == ZoneType.Red)
  | CheckId.altitude_limits =>
      decide (ctx.flight_plan.max_altitude_ft ≤ ctx.type_certificate.operating_altitude_max_ft)
        && decide (ctx.min_altitude_ft ≤ ctx.flight_plan.max_altitude_ft)
  | CheckId.pilot_rating =>
      decide (classRank ctx.type_certificate.weight_class ≤ classRank ctx.pilot.class_rating)

/-- The fixed evaluation order of the nine checks (spec section 4.2). -/
def allChecks : List CheckId :=
  [CheckId.drone_status, CheckId.uin_valid, CheckId.type_certificate, CheckId.pilot_rpc,
   CheckId.insurance, CheckId.maintenance, CheckId.zone_status, CheckId.altitude_limits,
   CheckId.pilot_rating]

/-- Human-readable reason attached to a failed check. -/
def failureReason : CheckId → String
  | CheckId.drone_status => "Drone status must be Active"
  | CheckId.uin_valid => "Drone must have a registered UIN"
  | CheckId.type_certificate => "Type certificate must be Certified, NPNT compliant and unexpired"
  | CheckId.pilot_rpc => "Pilot RPC must be Active and unexpired"
  | CheckId.insurance => "Drone insurance must be valid"
  | CheckId.maintenance => "No open critical maintenance items allowed"
  | CheckId.zone_status => "Flight zone must not be Red"
  | CheckId.altitude_limits => "Planned altitude must be within certificate limits"
  | CheckId.pilot_rating => "Pilot rating must cover the drone weight class"

/-- Structured failure carried by the gate decision. -/
structure CheckFailure where
  check_id : CheckId
  reason : String
deriving DecidableEq, Repr

/-- Gate decision: overall pass flag plus the itemized failures. -/
structure GateDecision where
  passed : Bool
  failures : List CheckFailure
deriving DecidableEq, Repr

/-- Modelled from the spec: the backend NPNT engine (`npnt_validator.py`) is not
among the repository's files.  All nine checks run with no short-circuiting;
every failure is collected in order; `passed` is the emptiness of that list. -/
def evaluate (ctx : GateContext) : GateDecision :=
  let failed := allChecks.filter (fun c => !(checkPasses ctx c))
  { passed := failed.isEmpty
  , failures := failed.map (fun c => { check_id := c, reason := failureReason c }) }

theorem mem_allChecks (c : CheckId) : c ∈ allChecks := by
  cases c <;> simp [allChecks]

/-- C1: the NPNT gate runs all nine checks without short-circuiting; `passed`
is true iff every one of the nine checks passes, and the failures list carries
exactly the check ids of the violated checks (so with k violated preconditions
it has exactly those k entries). -/
theorem npnt_evaluate_exact_failures (ctx : GateContext) :
    ((evaluate ctx).passed = true ↔ ∀ c : CheckId, checkPasses ctx c = true) ∧
    ((evaluate ctx).failures.map CheckFailure.check_id
      = allChecks.filter (fun c => !(checkPasses ctx c))) ∧
    (∀ c : CheckId,
      c ∈ (evaluate ctx).failures.map CheckFailure.check_id ↔ checkPasses ctx c = false) ∧
    ((evaluate ctx).failures.length = allChecks.countP (fun c => !(checkPasses ctx c))) := by
  refine ⟨?_, ?_, ?_, ?_⟩
  · constructor
    · intro h c
      have hnil : allChecks.filter (fun c => !(checkPasses ctx c)) = [] := by
        simpa [evaluate, List.isEmpty_iff] using h
      have := List.filter_eq_nil_iff.mp hnil c (mem_allChecks c)
      simpa using this
    · intro h
      have hnil : allChecks.filter (fun c => !(checkPasses ctx c)) = [] := by
        apply List.filter_eq_nil_iff.mpr
        intro c _
        simp [h c]
      simp [evaluate, List.isEmpty_iff, hnil]
  · have hcomp :
        (CheckFailure.check_id ∘ fun c => ({ check_id := c, reason := failureReason c } : CheckFailure))
          = fun c => c := rfl
    simp [evaluate, List.map_map, hcomp]
  · intro c
    have hcomp :
        (CheckFailure.check_id ∘ fun c => ({ check_id := c, reason := failureReason c } : CheckFailure))
          = fun c => c := rfl
    simp [evaluate, List.map_map, hcomp, List.mem_filter, mem_allChecks c]
  · simp [evaluate, List.countP_eq_length_filter]

/-- Telemetry fields of one flight log entry that enter its hash (schema table
`flight_logs`: timestamp, latitude, longitude, altitude). -/
structure LogFields where
  timestamp : Int
  latitude : Int
  longitude : Int
  altitude_m : Int
deriving DecidableEq, Repr

/-- Input of the per-entry hash: the concatenation
timestamp, lat, lon, alt, sequence_number, previous hash is modelled as this
record, hashed by an abstract function standing for SHA-256. -/
structure HashInput where
  fields : LogFields
  sequence_number : Nat
  previous_hash : Nat
deriving DecidableEq, Repr

/-- Modelled from the spec: the fixed genesis constant used as the predecessor
hash of entry 0. -/
def genesisHash : Nat := 0

/-- Committed flight log entry (schema table `flight_logs`: sequence_number,
previous_hash, entry_hash plus the hashed telemetry fields). -/
structure FlightLogEntry where
  fields : LogFields
  sequence_number : Nat
  previous_hash : Nat
  entry_hash : Nat
deriving DecidableEq, Repr

/-- Hash of one entry from its recorded fields, sequence number and declared
predecessor hash. -/
def entryHashOf (H : HashInput → Nat) (f : LogFields) (seq : Nat) (prev : Nat) : Nat :=
  H { fields := f, sequence_number := seq, previous_hash := prev }

/-- Entry as presented to `append`: claimed sequence number and declared
previous hash, before the entry hash is computed and committed. -/
structure CandidateEntry where
  fields : LogFields
  sequence_number : Nat
  previous_hash : Nat
deriving DecidableEq, Repr

/-- Errors of the append contract (spec section 4.4). -/
inductive AppendError
  | SequenceMismatch
  | PredecessorMismatch
deriving DecidableEq, Repr

/-- Sequence number the next appended entry must claim: one more than the last
committed entry's, and 0 for an empty chain. -/
def expectedSeq (chain : List FlightLogEntry) : Nat :=
  match chain.getLast? with
  | some e => e.sequence_number + 1
  | none => 0

/-- Predecessor hash the next appended entry must declare: the last committed
entry hash, and the genesis constant for an empty chain. -/
def expectedPrev (chain : List FlightLogEntry) : Nat :=
  match chain.getLast? with
  | some e => e.entry_hash
  | none => genesisHash

/-- Committed form of a candidate entry: its entry hash is computed from its
recorded fields, sequence number and declared previous hash. -/
def commitEntry (H : HashInput → Nat) (e : CandidateEntry) : FlightLogEntry :=
  { fields := e.fields
  , sequence_number := e.sequence_number
  , previous_hash := e.previous_hash
  , entry_hash := entryHashOf H e.fields e.sequence_number e.previous_hash }

/-- Modelled from the spec: the backend log ingestor (`log_ingestor.py`) is not
among the repository's files.  `append` fails with `SequenceMismatch` when the
claimed sequence number is not exactly one past the last committed one, with
`PredecessorMismatch` when the declared previous hash is not the last committed
entry hash, and otherwise commits the hashed entry at the end of the chain. -/
def append (H : HashInput → Nat) (chain : List FlightLogEntry) (e : CandidateEntry) :
    Except AppendError (List FlightLogEntry) :=
  if e.sequence_number ≠ expectedSeq chain then Except.error AppendError.SequenceMismatch
  else if e.previous_hash ≠ expectedPrev chain then Except.error AppendError.PredecessorMismatch
  else Except.ok (chain ++ [commitEntry H e])

/-- Chains that the storage can hold: those built from the empty chain by
successful appends (entries are immutable once written). -/
inductive Reachable (H : HashInput → Nat) : List FlightLogEntry → Prop
  | nil : Reachable H []
  | step (chain : List FlightLogEntry) (e : CandidateEntry) (next : List FlightLogEntry)
      (hc : Reachable H chain) (ha : append H chain e = Except.ok next) : Reachable H next

/-- Decidable chain validity from a given predecessor hash and expected
sequence number: sequence numbers are consecutive, each entry's declared
previous hash links to its predecessor, and each stored entry hash recomputes
from the entry's recorded fields. -/
def chainOkFrom (H : HashInput → Nat) (prev : Nat) (seq : Nat) : List FlightLogEntry → Bool
  | [] => true
  | e :: rest =>
      e.sequence_number == seq && e.previous_hash == prev
        && e.entry_hash == entryHashOf H e.fields e.sequence_number e.previous_hash
        && chainOkFrom H e.entry_hash (e.sequence_number + 1) rest

/-- Valid (correctly chained, gap-free) chain: valid from the genesis constant
with sequence numbers starting at 0. -/
def chainOk (H : HashInput → Nat) (chain : List FlightLogEntry) : Bool :=
  chainOkFrom H genesisHash 0 chain

/-- Predecessor hash expected after a prefix, relative to a start hash. -/
def tailPrev (p : Nat) (c : List FlightLogEntry) : Nat :=
  match c.getLast? with
  | some x => x.entry_hash
  | none => p

/-- Sequence number expected after a prefix, relative to a start number. -/
def tailSeq (s : Nat) (c : List FlightLogEntry) : Nat :=
  match c.getLast? with
  | some x => x.sequence_number + 1
  | none => s

theorem tailPrev_cons (p : Nat) (x : FlightLogEntry) (c : List FlightLogEntry) :
    tailPrev p (x :: c) = tailPrev x.entry_hash c := by
  cases c <;> simp [tailPrev, List.getLast?]

theorem tailSeq_cons (s : Nat) (x : FlightLogEntry) (c : List FlightLogEntry) :
    tailSeq s (x :: c) = tailSeq (x.sequence_number + 1) c := by
  cases c <;> simp [tailSeq, List.getLast?]

theorem chainOkFrom_cons (H : HashInput → Nat) (p s : Nat) (e : FlightLogEntry)
    (rest : List FlightLogEntry) :
    chainOkFrom H p s (e :: rest) = true ↔
      e.sequence_number = s ∧ e.previous_hash = p
        ∧ e.entry_hash = entryHashOf H e.fields e.sequence_number e.previous_hash
        ∧ chainOkFrom H e.entry_hash (e.sequence_number + 1) rest = true := by
  simp [chainOkFrom, Bool.and_eq_true, beq_iff_eq, and_assoc]

theorem chainOkFrom_append_of (H : HashInput → Nat) (e : FlightLogEntry) :
    ∀ (c : List FlightLogEntry) (p s : Nat),
      chainOkFrom H p s c = true →
      e.sequence_number = tailSeq s c →
      e.previous_hash = tailPrev p c →
      e.entry_hash = entryHashOf H e.fields e.sequence_number e.previous_hash →
      chainOkFrom H p s (c ++ [e]) = true := by
  intro c
  induction c with
  | nil =>
      intro p s _ hseq hprev hhash
      simp [tailSeq, tailPrev, List.getLast?] at hseq hprev
      simp [chainOkFrom, hseq, hprev, hhash]
  | cons x rest ih =>
      intro p s hok hseq hprev hhash
      rw [tailSeq_cons] at hseq
      rw [tailPrev_cons] at hprev
      rcases (chainOkFrom_cons H p s x rest).mp hok with ⟨h1, h2, h3, h4⟩
      rw [List.cons_append]
      apply (chainOkFrom_cons H p s x (rest ++ [e])).mpr
      refine ⟨h1, h2, h3, ?_⟩
      exact ih x.entry_hash (x.sequence_number + 1) h4 hseq hprev hhash

theorem expectedSeq_eq_tailSeq (chain : List FlightLogEntry) :
    expectedSeq chain = tailSeq 0 chain := by
  cases h : chain.getLast? <;> simp [expectedSeq, tailSeq, h]

theorem expectedPrev_eq_tailPrev (chain : List FlightLogEntry) :
    expectedPrev chain = tailPrev genesisHash chain := by
  cases h : chain.getLast? <;> simp [expectedPrev, tailPrev, genesisHash, h]

theorem append_ok_elim (H : HashInput → Nat) (chain : List FlightLogEntry)
    (e : CandidateEntry) (next : List FlightLogEntry)
    (h : append H chain e = Except.ok next) :
    next = chain ++ [commitEntry H e]
      ∧ e.sequence_number = expectedSeq chain
      ∧ e.previous_hash = expectedPrev chain := by
  by_cases h1 : e.sequence_number = expectedSeq chain
  · by_cases h2 : e.previous_hash = expectedPrev chain
    · refine ⟨?_, h1, h2⟩
      simp [append, h1, h2] at h
      exact h.symm
    · simp [append, h1, h2] at h
  · simp [append, h1] at h

theorem reachable_chainOk (H : HashInput → Nat) (chain : List FlightLogEntry)
    (hr : Reachable H chain) : chainOk H chain = true := by
  induction hr with
  | nil => simp [chainOk, chainOkFrom]
  | step c e next _ ha ih =>
      rcases append_ok_elim H c e next ha with ⟨hnext, hseq, hprev⟩
      subst hnext
      apply chainOkFrom_append_of H (commitEntry H e) c genesisHash 0 ih
      · rw [← expectedSeq_eq_tailSeq]
        simpa [commitEntry] using hseq
      · rw [← expectedPrev_eq_tailPrev]
        simpa [commitEntry] using hprev
      · simp [commitEntry]

theorem chainOkFrom_get_all (H : HashInput → Nat) :
    ∀ (c : List FlightLogEntry) (p s : Nat), chainOkFrom H p s c = true →
      ∀ (n : Nat) (hn : n < c.length),
        (c.get ⟨n, hn⟩).sequence_number = s + n
        ∧ (c.get ⟨n, hn⟩).entry_hash
            = entryHashOf H (c.get ⟨n, hn⟩).fields (c.get ⟨n, hn⟩).sequence_number
                (c.get ⟨n, hn⟩).previous_hash := by
  intro c
  induction c with
  | nil => intro p s _ n hn; exact absurd hn (by simp)
  | cons x rest ih =>
      intro p s hok n hn
      rcases (chainOkFrom_cons H p s x rest).mp hok with ⟨h1, _, h3, h4⟩
      cases n with
      | zero => simpa using ⟨h1, h3⟩
      | succ m =>
          have hm : m < rest.length := Nat.lt_of_succ_lt_succ hn
          obtain ⟨ha, hb⟩ := ih x.entry_hash (x.sequence_number + 1) h4 m hm
          constructor
          · simp only [List.get_eq_getElem, List.getElem_cons_succ] at ha ⊢
            rw [ha, h1]
            omega
          · simpa using hb

theorem chainOkFrom_head_prev (H : HashInput → Nat) (p s : Nat) (c : List FlightLogEntry)
    (hok : chainOkFrom H p s c = true) (h0 : 0 < c.length) :
    (c.get ⟨0, h0⟩).previous_hash = p := by
  cases c with
  | nil => exact absurd h0 (by simp)
  | cons x rest =>
      rcases (chainOkFrom_cons H p s x rest).mp hok with ⟨_, h2, _, _⟩
      simpa using h2

theorem chainOkFrom_link (H : HashInput → Nat) :
    ∀ (c : List FlightLogEntry) (p s : Nat), chainOkFrom H p s c = true →
      ∀ (n : Nat) (hn : n + 1 < c.length),
        (c.get ⟨n + 1, hn⟩).previous_hash
          = (c.get ⟨n, Nat.lt_of_succ_lt hn⟩).entry_hash := by
  intro c
  induction c with
  | nil => intro p s _ n hn; exact absurd hn (by simp)
  | cons x rest ih =>
      intro p s hok n hn
      rcases (chainOkFrom_cons H p s x rest).mp hok with ⟨_, _, _, h4⟩
      cases n with
      | zero =>
          have hr : 0 < rest.length := Nat.lt_of_succ_lt_succ hn
          have := chainOkFrom_head_prev H x.entry_hash (x.sequence_number + 1) rest h4 hr
          simpa using this
      | succ m =>
          have hm : m + 1 < rest.length := Nat.lt_of_succ_lt_succ hn
          have := ih x.entry_hash (x.sequence_number + 1) h4 m hm
          simpa using this

/-- C2: on every chain the storage can hold, each entry's stored hash is the
hash of its recorded fields, its sequence number and its predecessor's stored
entry hash; entry 0 uses the fixed genesis constant as predecessor. -/
theorem chain_hash_recurrence (H : HashInput → Nat) (chain : List FlightLogEntry)
    (hr : Reachable H chain) :
    (∀ (n : Nat) (hn : n + 1 < chain.length),
        (chain.get ⟨n + 1, hn⟩).entry_hash
          = entryHashOf H (chain.get ⟨n + 1, hn⟩).fields
              (chain.get ⟨n + 1, hn⟩).sequence_number
              (chain.get ⟨n, Nat.lt_of_succ_lt hn⟩).entry_hash) ∧
    (∀ h0 : 0 < chain.length,
        (chain.get ⟨0, h0⟩).previous_hash = genesisHash
        ∧ (chain.get ⟨0, h0⟩).entry_hash
            = entryHashOf H (chain.get ⟨0, h0⟩).fields
                (chain.get ⟨0, h0⟩).sequence_number genesisHash) := by
  have hok : chainOkFrom H genesisHash 0 chain = true := reachable_chainOk H chain hr
  constructor
  · intro n hn
    have hhash := (chainOkFrom_get_all H chain genesisHash 0 hok (n + 1) hn).2
    have hlink := chainOkFrom_link H chain genesisHash 0 hok n hn
    rw [hhash, hlink]
  · intro h0
    have hprev := chainOkFrom_head_prev H genesisHash 0 chain hok h0
    have hhash := (chainOkFrom_get_all H chain genesisHash 0 hok 0 h0).2
    exact ⟨hprev, by rw [hhash, hprev]⟩

/-- Tamper classes reported by chain verification (spec section 4.4). -/
inductive AnomalyType
  | ModifiedEntry
  | MissingEntry
  | BrokenLink
deriving DecidableEq, Repr

/-- One anomaly: its class and the sequence number it was found at. -/
structure Anomaly where
  anomaly_type : AnomalyType
  sequence : Nat
deriving DecidableEq, Repr

/-- Result of chain verification. -/
structure VerifyResult where
  intact : Bool
  anomalies : List Anomaly
deriving DecidableEq, Repr

/-- Modelled from the spec: the backend verifier is not among the repository's
files.  Walks entries in sequence order from a given predecessor hash and
expected sequence number; a sequence gap yields `MissingEntry`, a stored entry
hash that does not recompute from the recorded fields yields `ModifiedEntry`,
and a declared previous hash that does not match the predecessor's stored
entry hash while the entry's own hash recomputes correctly yields
`BrokenLink`. -/
def verifyFrom (H : HashInput → Nat) (prevHash : Nat) (expSeq : Nat) :
    List FlightLogEntry → List Anomaly
  | [] => []
  | e :: rest =>
      let hashOk := e.entry_hash == entryHashOf H e.fields e.sequence_number e.previous_hash
      let gapAnoms := if e.sequence_number == expSeq then []
        else [{ anomaly_type := AnomalyType.MissingEntry, sequence := e.sequence_number }]
      let modAnoms := if hashOk then []
        else [{ anomaly_type := AnomalyType.ModifiedEntry, sequence := e.sequence_number }]
      let linkAnoms := if e.previous_hash == prevHash then []
        else if hashOk then
          [{ anomaly_type := AnomalyType.BrokenLink, sequence := e.sequence_number }]
        else []
      gapAnoms ++ modAnoms ++ linkAnoms
        ++ verifyFrom H e.entry_hash (e.sequence_number + 1) rest

/-- Modelled from the spec: deterministic, side-effect-free verification of a
stored chain, from the genesis constant and sequence number 0; `intact` is the
emptiness of the collected anomaly list. -/
def verifyChain (H : HashInput → Nat) (chain : List FlightLogEntry) : VerifyResult :=
  let anomalies := verifyFrom H genesisHash 0 chain
  { intact := anomalies.isEmpty, anomalies := anomalies }

theorem verifyFrom_eq_nil (H : HashInput → Nat) :
    ∀ (c : List FlightLogEntry) (p s : Nat),
      chainOkFrom H p s c = true → verifyFrom H p s c = [] := by
  intro c
  induction c with
  | nil => intro p s _; rfl
  | cons e rest ih =>
      intro p s hok
      rcases (chainOkFrom_cons H p s e rest).mp hok with ⟨h1, h2, h3, h4⟩
      rw [h3, h1, h2] at h4
      have hrest := ih _ _ h4
      simp [verifyFrom, h1, h2, h3, hrest]

/-- C3: on every valid (correctly chained, gap-free) chain, verification
returns intact with an empty anomaly list. -/
theorem verifyChain_intact_of_valid (H : HashInput → Nat) (chain : List FlightLogEntry)
    (h : chainOk H chain = true) :
    verifyChain H chain = { intact := true, anomalies := [] } := by
  have hnil := verifyFrom_eq_nil H chain genesisHash 0 h
  simp [verifyChain, hnil]

/-- Post-hoc mutation of the recorded telemetry fields of the entry at index
`i`, leaving every stored hash and sequence number as committed. -/
def setEntryFields (chain : List FlightLogEntry) (i : Nat) (f : LogFields) :
    List FlightLogEntry :=
  match chain[i]? with
  | some e => chain.set i { e with fields := f }
  | none => chain

theorem verifyFrom_set (H : HashInput → Nat) :
    ∀ (c : List FlightLogEntry) (p s i : Nat) (f : LogFields)
      (hok : chainOkFrom H p s c = true) (hi : i < c.length),
      entryHashOf H f (c.get ⟨i, hi⟩).sequence_number (c.get ⟨i, hi⟩).previous_hash
          ≠ (c.get ⟨i, hi⟩).entry_hash →
      verifyFrom H p s (setEntryFields c i f)
        = [{ anomaly_type := AnomalyType.ModifiedEntry, sequence := s + i }] := by
  intro c
  induction c with
  | nil => intro p s i f _ hi; exact absurd hi (by simp)
  | cons e rest ih =>
      intro p s i f hok hi hne
      rcases (chainOkFrom_cons H p s e rest).mp hok with ⟨h1, h2, h3, h4⟩
      cases i with
      | zero =>
          simp only [List.get_eq_getElem, List.getElem_cons_zero] at hne
          have hset : setEntryFields (e :: rest) 0 f = { e with fields := f } :: rest := by
            simp [setEntryFields]
          rw [hset]
          have hrest := verifyFrom_eq_nil H rest e.entry_hash (e.sequence_number + 1) h4
          rw [h1] at hrest
          have hbad : ¬ (e.entry_hash = entryHashOf H f s p) := by
            rw [← h1, ← h2]
            exact fun hc => hne hc.symm
          simp [verifyFrom, h1, h2, hrest, hbad]
      | succ j =>
          simp only [List.get_eq_getElem, List.getElem_cons_succ] at hne
          have hj : j < rest.length := Nat.lt_of_succ_lt_succ hi
          have hset :
              setEntryFields (e :: rest) (j + 1) f = e :: setEntryFields rest j f := by
            have hsome : rest[j]? = some (rest.get ⟨j, hj⟩) := by
              simp [List.getElem?_eq_getElem hj]
            simp [setEntryFields, hsome]
          rw [hset]
          have hrec := ih e.entry_hash (e.sequence_number + 1) j f h4 hj hne
          rw [h3, h1, h2] at hrec
          have hstep : s + 1 + j = s + (j + 1) := by omega
          rw [hstep] at hrec
          simp [verifyFrom, h1, h2, h3, hrec]

/-- C4: mutating the recorded fields of entry `i` of a valid chain (in a way
that actually changes its recomputed hash) makes verification report exactly
one anomaly: `ModifiedEntry` at sequence `i`; no other entry is flagged. -/
theorem verifyChain_detects_modified_entry (H : HashInput → Nat)
    (chain : List FlightLogEntry) (i : Nat) (f : LogFields)
    (hok : chainOk H chain = true) (hi : i < chain.length)
    (hne : entryHashOf H f (chain.get ⟨i, hi⟩).sequence_number
        (chain.get ⟨i, hi⟩).previous_hash ≠ (chain.get ⟨i, hi⟩).entry_hash) :
    verifyChain H (setEntryFields chain i f)
      = { intact := false
        , anomalies := [{ anomaly_type := AnomalyType.ModifiedEntry, sequence := i }] } := by
  have hset := verifyFrom_set H chain genesisHash 0 i f hok hi hne
  simp [verifyChain, hset]

/-- C5: the append contract against a chain whose last committed entry is
`tail`: a claimed sequence number other than `tail.sequence_number + 1` is
rejected with `SequenceMismatch`; with the right sequence number, a declared
previous hash other than `tail.entry_hash` is rejected with
`PredecessorMismatch`; when both match, the entry is committed at the end. -/
theorem append_sequence_predecessor_contract (H : HashInput → Nat)
    (chain : List FlightLogEntry) (tail : FlightLogEntry) (e : CandidateEntry)
    (hlast : chain.getLast? = some tail) :
    (e.sequence_number ≠ tail.sequence_number + 1 →
        append H chain e = Except.error AppendError.SequenceMismatch) ∧
    (e.sequence_number = tail.sequence_number + 1 → e.previous_hash ≠ tail.entry_hash →
        append H chain e = Except.error AppendError.PredecessorMismatch) ∧
    (e.sequence_number = tail.sequence_number + 1 → e.previous_hash = tail.entry_hash →
        append H chain e = Except.ok (chain ++ [commitEntry H e])) := by
  have hseq : expectedSeq chain = tail.sequence_number + 1 := by
    simp [expectedSeq, hlast]
  have hprev : expectedPrev chain = tail.entry_hash := by
    simp [expectedPrev, hlast]
  refine ⟨?_, ?_, ?_⟩
  · intro h
    simp [append, hseq, h]
  · intro h1 h2
    simp [append, hseq, hprev, h1, h2]
  · intro h1 h2
    simp [append, hseq, hprev, h1, h2]

/-- Concrete hash function for the witnesses: the entry's timestamp. -/
def HW : HashInput → Nat := fun inp => inp.fields.timestamp.toNat

/-- Concrete log entry for the witnesses, hashed with `HW`. -/
def mkEntryW (t : Int) (seq : Nat) (prev : Nat) : FlightLogEntry :=
  { fields := { timestamp := t, latitude := 0, longitude := 0, altitude_m := 0 }
  , sequence_number := seq
  , previous_hash := prev
  , entry_hash := t.toNat }

/-- Concrete valid five-entry chain for the witnesses. -/
def chainW : List FlightLogEntry :=
  [mkEntryW 10 0 0, mkEntryW 20 1 10, mkEntryW 30 2 20, mkEntryW 40 3 30, mkEntryW 50 4 40]

/-- Concrete mutated fields for the C4 witness. -/
def fieldsW : LogFields := { timestamp := 99, latitude := 0, longitude := 0, altitude_m := 0 }

theorem verifyChain_intact_of_valid_witness :
    verifyChain HW chainW = { intact := true, anomalies := [] } :=
  verifyChain_intact_of_valid HW chainW (by decide)

theorem verifyChain_detects_modified_entry_witness :
    verifyChain HW (setEntryFields chainW 3 fieldsW)
      = { intact := false
        , anomalies := [{ anomaly_type := AnomalyType.ModifiedEntry, sequence := 3 }] } :=
  verifyChain_detects_modified_entry HW chainW 3 fieldsW (by decide) (by decide) (by decide)

theorem append_sequence_predecessor_contract_witness :
    (append HW chainW { fields := fieldsW, sequence_number := 7, previous_hash := 50 }
        = Except.error AppendError.SequenceMismatch) ∧
    (append HW chainW { fields := fieldsW, sequence_number := 5, previous_hash := 99 }
        = Except.error AppendError.PredecessorMismatch) ∧
    (append HW chainW { fields := fieldsW, sequence_number := 5, previous_hash := 50 }
        = Except.ok (chainW
            ++ [commitEntry HW { fields := fieldsW, sequence_number := 5, previous_hash := 50 }])) := by
  refine ⟨?_, ?_, ?_⟩
  · exact (append_sequence_predecessor_contract HW chainW (mkEntryW 50 4 40)
      { fields := fieldsW, sequence_number := 7, previous_hash := 50 } (by decide)).1 (by decide)
  · exact (append_sequence_predecessor_contract HW chainW (mkEntryW 50 4 40)
      { fields := fieldsW, sequence_number := 5, previous_hash := 99 } (by decide)).2.1
      (by decide) (by decide)
  · exact (append_sequence_predecessor_contract HW chainW (mkEntryW 50 4 40)
      { fields := fieldsW, sequence_number := 5, previous_hash := 50 } (by decide)).2.2
      (by decide) (by decide)

/-- Concrete candidates building a two-entry reachable chain for the C2 witness. -/
def candW0 : CandidateEntry :=
  { fields := { timestamp := 10, latitude := 0, longitude := 0, altitude_m := 0 }
  , sequence_number := 0, previous_hash := 0 }

/-- Second candidate of the C2 witness chain. -/
def candW1 : CandidateEntry :=
  { fields := { timestamp := 20, latitude := 0, longitude := 0, altitude_m := 0 }
  , sequence_number := 1, previous_hash := 10 }

/-- One-entry prefix of the C2 witness chain. -/
def chainW1 : List FlightLogEntry := [mkEntryW 10 0 0]

/-- The two-entry C2 witness chain. -/
def chainW2 : List FlightLogEntry := [mkEntryW 10 0 0, mkEntryW 20 1 10]

theorem chain_hash_recurrence_witness :
    (chainW2.get ⟨1, by decide⟩).entry_hash
      = entryHashOf HW (chainW2.get ⟨1, by decide⟩).fields
          (chainW2.get ⟨1, by decide⟩).sequence_number
          (chainW2.get ⟨0, by decide⟩).entry_hash := by
  have hr : Reachable HW chainW2 := by
    refine Reachable.step chainW1 candW1 chainW2 ?_ (by rfl)
    exact Reachable.step [] candW0 chainW1 Reachable.nil (by rfl)
  exact (chain_hash_recurrence HW chainW2 hr).1 0 (by decide)

/-- Permission artifact row (schema table `permission_artifacts`; its
`flight_plan_id` column carries a UNIQUE NOT NULL constraint).  The artifact
records the gate decision current at issuance. -/
structure PermissionArtifact where
  flight_plan_id : Nat
  decision : GateDecision
deriving DecidableEq, Repr

/-- Issuance errors: gate not passed, or the uniqueness constraint on
flight_plan_id rejects a second artifact (the ConcurrencyConflict case). -/
inductive IssueError
  | GateNotPassed
  | DuplicateArtifact
deriving DecidableEq, Repr

/-- Modelled from the spec: the issuer service is not among the repository's
files; the uniqueness constraint on flight_plan_id is in the schema.  `issue`
fails with GateNotPassed when the decision did not pass, fails with
DuplicateArtifact when an artifact already exists for the plan, and otherwise
inserts exactly one new artifact for the plan. -/
def issue (store : List PermissionArtifact) (planId : Nat) (d : GateDecision) :
    Except IssueError (List PermissionArtifact) :=
  if d.passed = false then Except.error IssueError.GateNotPassed
  else if store.any (fun a => a.flight_plan_id == planId) then
    Except.error IssueError.DuplicateArtifact
  else Except.ok (store ++ [{ flight_plan_id := planId, decision := d }])

/-- Number of artifacts held for one plan. -/
def countFor (store : List PermissionArtifact) (planId : Nat) : Nat :=
  store.countP (fun a => a.flight_plan_id == planId)

/-- Run a sequence of issue attempts; a rejected attempt leaves the store
unchanged.  The uniqueness constraint serializes concurrent attempts, so any
interleaving of issuance requests is some such sequence. -/
def runIssues : List (Nat × GateDecision) → List PermissionArtifact → List PermissionArtifact
  | [], store => store
  | (p, d) :: rest, store =>
      match issue store p d with
      | Except.ok s2 => runIssues rest s2
      | Except.error _ => runIssues rest store

/-- Whether some attempt of the sequence successfully issues for `planId`. -/
def everIssued : List (Nat × GateDecision) → List PermissionArtifact → Nat → Bool
  | [], _, _ => false
  | (p, d) :: rest, store, planId =>
      match issue store p d with
      | Except.ok s2 => (p == planId) || everIssued rest s2 planId
      | Except.error _ => everIssued rest store planId

theorem issue_ok_elim (store : List PermissionArtifact) (planId : Nat) (d : GateDecision)
    (s2 : List PermissionArtifact) (h : issue store planId d = Except.ok s2) :
    d.passed = true
      ∧ countFor store planId = 0
      ∧ s2 = store ++ [{ flight_plan_id := planId, decision := d }] := by
  by_cases h1 : d.passed = false
  · simp [issue, h1] at h
  · by_cases h2 : store.any (fun a => a.flight_plan_id == planId) = true
    · simp [issue, h1, h2] at h
    · refine ⟨by simpa using h1, ?_, ?_⟩
      · simp only [countFor, List.countP_eq_zero]
        intro a ha hc
        exact h2 (List.any_eq_true.mpr ⟨a, ha, hc⟩)
      · simp [issue, h1, h2] at h
        exact h.symm

theorem countFor_append_one (store : List PermissionArtifact) (a : PermissionArtifact)
    (planId : Nat) :
    countFor (store ++ [a]) planId
      = countFor store planId + (if a.flight_plan_id = planId then 1 else 0) := by
  by_cases h : a.flight_plan_id = planId
  · simp [countFor, List.countP_append, List.countP_cons, h]
  · simp [countFor, List.countP_append, List.countP_cons, h]

theorem runIssues_invariant :
    ∀ (reqs : List (Nat × GateDecision)) (store : List PermissionArtifact),
      (∀ pid, countFor store pid ≤ 1) →
      (∀ a ∈ store, a.decision.passed = true) →
      (∀ pid, countFor (runIssues reqs store) pid ≤ 1)
        ∧ (∀ a ∈ runIssues reqs store, a.decision.passed = true)
        ∧ (∀ pid, countFor store pid ≤ countFor (runIssues reqs store) pid)
        ∧ (∀ pid, everIssued reqs store pid = true →
            countFor (runIssues reqs store) pid = 1) := by
  intro reqs
  induction reqs with
  | nil =>
      intro store hcount hpass
      refine ⟨hcount, hpass, fun pid => Nat.le_refl _, ?_⟩
      intro pid h
      simp [everIssued] at h
  | cons req rest ih =>
      intro store hcount hpass
      obtain ⟨p, d⟩ := req
      cases hiss : issue store p d with
      | ok s2 =>
          obtain ⟨hdpass, hzero, hs2⟩ := issue_ok_elim store p d s2 hiss
          have hcount2 : ∀ pid, countFor s2 pid ≤ 1 := by
            intro pid
            rw [hs2, countFor_append_one]
            by_cases hp : p = pid
            · simp [hp] at hzero ⊢
              omega
            · have : ({ flight_plan_id := p, decision := d } :
                  PermissionArtifact).flight_plan_id ≠ pid := hp
              simp [this]
              exact hcount pid
          have hpass2 : ∀ a ∈ s2, a.decision.passed = true := by
            intro a ha
            rw [hs2] at ha
            rcases List.mem_append.mp ha with hin | hin
            · exact hpass a hin
            · simp at hin
              rw [hin]
              exact hdpass
          obtain ⟨ih1, ih2, ih3, ih4⟩ := ih s2 hcount2 hpass2
          have hrun : runIssues ((p, d) :: rest) store = runIssues rest s2 := by
            simp [runIssues, hiss]
          have hmono : ∀ pid, countFor store pid ≤ countFor (runIssues rest s2) pid := by
            intro pid
            refine Nat.le_trans ?_ (ih3 pid)
            rw [hs2, countFor_append_one]
            omega
          refine ⟨by rw [hrun]; exact ih1, by rw [hrun]; exact ih2,
            by rw [hrun]; exact hmono, ?_⟩
          intro pid hever
          rw [hrun]
          simp only [everIssued, hiss] at hever
          have hever2 : p = pid ∨ everIssued rest s2 pid = true := by
            simpa using hever
          rcases hever2 with hp | hrec
          · have hp : p = pid := by simpa using hp
            have hone : countFor s2 pid = 1 := by
              rw [hs2, countFor_append_one]
              simp [hp] at hzero ⊢
              omega
            have hle := ih3 pid
            rw [hone] at hle
            exact Nat.le_antisymm (ih1 pid) hle
          · exact ih4 pid hrec
      | error err =>
          obtain ⟨ih1, ih2, ih3, ih4⟩ := ih store hcount hpass
          have hrun : runIssues ((p, d) :: rest) store = runIssues rest store := by
            simp [runIssues, hiss]
          have hever : everIssued ((p, d) :: rest) store = everIssued rest store := by
            funext pid
            simp [everIssued, hiss]
          rw [hrun, hever]
          exact ⟨ih1, ih2, ih3, ih4⟩

/-- C6: starting from an empty store, after any sequence of issue attempts at
most one artifact exists per flight plan, every existing artifact was issued
on a passing gate decision, and a plan for which some attempt succeeded holds
exactly one artifact. -/
theorem artifact_at_most_once (reqs : List (Nat × GateDecision)) (planId : Nat) :
    countFor (runIssues reqs []) planId ≤ 1 ∧
    (∀ a ∈ runIssues reqs [], a.decision.passed = true) ∧
    (everIssued reqs [] planId = true → countFor (runIssues reqs []) planId = 1) := by
  obtain ⟨h1, h2, _, h4⟩ := runIssues_invariant reqs []
    (by intro pid; simp [countFor]) (by intro a ha; simp at ha)
  exact ⟨h1 planId, h2, h4 planId⟩

/-- Tables of the audit and compliance section of the schema. -/
inductive TableId
  | audit_log
  | compliance_violations
deriving DecidableEq, Repr

/-- Statement kinds a rewrite rule can intercept. -/
inductive StmtKind
  | update
  | delete
deriving DecidableEq, Repr

/-- Head of a `CREATE RULE ... AS ON <kind> TO <table> DO INSTEAD NOTHING`
statement. -/
structure RewriteRule where
  table : TableId
  on_kind : StmtKind
deriving DecidableEq, Repr

/-- The DO INSTEAD NOTHING rules the schema creates: `audit_log_no_update` and
`audit_log_no_delete`, both on `audit_log`; the schema creates no such rule on
`compliance_violations`. -/
def schemaRules : List RewriteRule :=
  [{ table := TableId.audit_log, on_kind := StmtKind.update }
  , { table := TableId.audit_log, on_kind := StmtKind.delete }]

/-- Whether a DO INSTEAD NOTHING rule covers the given table and statement
kind. -/
def hasDoInsteadNothing (t : TableId) (k : StmtKind) : Bool :=
  schemaRules.any (fun r => r.table == t && r.on_kind == k)

/-- PostgreSQL rule semantics of an UPDATE with assignment `f` on the rows
matching `cond`: when a DO INSTEAD NOTHING rule covers the table's updates,
the statement completes and leaves every row as it was; otherwise each
matching row is replaced. -/
def applyUpdate {α : Type} (t : TableId) (f : α → α) (cond : α → Bool)
    (rows : List α) : List α :=
  if hasDoInsteadNothing t StmtKind.update then rows
  else rows.map (fun r => if cond r then f r else r)

/-- PostgreSQL rule semantics of a DELETE of the rows matching `cond`. -/
def applyDelete {α : Type} (t : TableId) (cond : α → Bool) (rows : List α) : List α :=
  if hasDoInsteadNothing t StmtKind.delete then rows
  else rows.filter (fun r => !(cond r))

/-- C10: on the audit_log table, every UPDATE and every DELETE completes
without error and leaves every row exactly as it was: the schema's rules
rewrite both statements to silent no-ops. -/
theorem audit_log_update_delete_noop {α : Type} (rows : List α) (f : α → α)
    (cond : α → Bool) :
    applyUpdate TableId.audit_log f cond rows = rows
      ∧ applyDelete TableId.audit_log cond rows = rows := by
  constructor <;> simp [applyUpdate, applyDelete, hasDoInsteadNothing, schemaRules]

/-- C7 counterexample: an UPDATE on the compliance violation table takes
effect, so a committed violation record is not left unchanged by every
subsequent operation. -/
theorem violations_update_path_exists :
    applyUpdate TableId.compliance_violations (fun n => n + 1) (fun _ => true)
      [(0 : Nat)] ≠ [0] := by
  decide

/-- C7 amended: only the audit_log table is structurally append-only (covered
by DO INSTEAD NOTHING rules on update and delete); compliance_violations has
no such rule, so updates and deletes on it take full effect. -/
theorem append_only_rules_audit_log_only {α : Type} (rows : List α) (f : α → α)
    (cond : α → Bool) :
    (applyUpdate TableId.audit_log f cond rows = rows
      ∧ applyDelete TableId.audit_log cond rows = rows)
    ∧ (hasDoInsteadNothing TableId.compliance_violations StmtKind.update = false
      ∧ hasDoInsteadNothing TableId.compliance_violations StmtKind.delete = false)
    ∧ (applyUpdate TableId.compliance_violations f cond rows
        = rows.map (fun r => if cond r then f r else r)
      ∧ applyDelete TableId.compliance_violations cond rows
        = rows.filter (fun r => !(cond r))) := by
  refine ⟨?_, ⟨by decide, by decide⟩, ?_, ?_⟩
  · constructor <;> simp [applyUpdate, applyDelete, hasDoInsteadNothing, schemaRules]
  · simp [applyUpdate, hasDoInsteadNothing, schemaRules]
  · simp [applyDelete, hasDoInsteadNothing, schemaRules]

/-- Drone row of the Prisma admin app, restricted to the columns the
`PUT /api/drones/[id]` route writes. -/
structure DroneRow where
  modelName : String
  uin : String
  image : Option String
  accountableManagerId : Option String
  webPortalLink : Option String
  manufacturedUnits : List String
deriving DecidableEq, Repr

/-- JSON body of the PUT route: a key missing from the request destructures to
undefined, modelled as `none`; a supplied key is `some`. -/
structure PutDroneBody where
  modelName : Option String
  uin : Option String
  image : Option String
  accountableManagerId : Option String
  webPortalLink : Option String
  manufacturedUnits : Option (List String)
deriving DecidableEq, Repr

/-- The PUT handler of `src/src/app/api/drones/[id]/route.ts` under Prisma
update semantics: an undefined field of `data` leaves the column unchanged, a
supplied field overwrites it; a supplied manufacturedUnits list replaces the
related rows (deleteMany then create). -/
def putDrone (body : PutDroneBody) (d : DroneRow) : DroneRow :=
  { modelName := body.modelName.getD d.modelName
  , uin := body.uin.getD d.uin
  , image := match body.image with
      | some v => some v
      | none => d.image
  , accountableManagerId := match body.accountableManagerId with
      | some v => some v
      | none => d.accountableManagerId
  , webPortalLink := match body.webPortalLink with
      | some v => some v
      | none => d.webPortalLink
  , manufacturedUnits := body.manufacturedUnits.getD d.manufacturedUnits }

/-- Concrete stored drone for the C8 counterexample. -/
def droneRowW : DroneRow :=
  { modelName := "AeroSky X1", uin := "UIN-0001", image := none
  , accountableManagerId := none, webPortalLink := none, manufacturedUnits := [] }

/-- Concrete PUT body supplying a different uin for the C8 counterexample. -/
def putBodyW : PutDroneBody :=
  { modelName := none, uin := some "UIN-0002", image := none
  , accountableManagerId := none, webPortalLink := none, manufacturedUnits := none }

/-- C8 counterexample: an update operation changes an assigned UIN: the PUT
route overwrites the stored UIN with the uin supplied in the request body. -/
theorem putDrone_changes_uin :
    (putDrone putBodyW droneRowW).uin ≠ droneRowW.uin := by
  decide

/-- C8 amended: the UIN is not immutable through the registry update route:
PUT preserves the stored UIN exactly when the request body omits the uin
field, and overwrites it with any uin value the body supplies. -/
theorem putDrone_uin_follows_body (body : PutDroneBody) (d : DroneRow) :
    (body.uin = none → (putDrone body d).uin = d.uin)
    ∧ (∀ u : String, body.uin = some u → (putDrone body d).uin = u) := by
  constructor
  · intro h
    simp [putDrone, h]
  · intro u h
    simp [putDrone, h]

/-- Geographic vertex of a flight polygon. -/
structure GeoPoint where
  latitude : Int
  longitude : Int
deriving DecidableEq, Repr

/-- One zone of the maintained zone dataset. -/
structure ZoneRecord where
  zone_id : Nat
  zone_type : ZoneType
deriving DecidableEq, Repr

/-- Result of zone classification. -/
structure ClassifyResult where
  zone : ZoneType
  touched_zone_ids : List Nat
deriving DecidableEq, Repr

/-- Zone classifier input error. -/
inductive GeometryError
  | InvalidGeometry
deriving DecidableEq, Repr

/-- Restrictiveness order: Green below Yellow below Red. -/
def zoneRank : ZoneType → Nat
  | ZoneType.Green => 0
  | ZoneType.Yellow => 1
  | ZoneType.Red => 2

/-- More restrictive of two zones. -/
def maxZone (a b : ZoneType) : ZoneType :=
  if zoneRank a < zoneRank b then b else a

/-- Most restrictive zone among a list of touched zones; Green when none is
touched. -/
def mostRestrictive (zs : List ZoneType) : ZoneType :=
  zs.foldl maxZone ZoneType.Green

/-- Zones of the dataset touched by the polygon, per the containment and
intersection test `touches`. -/
def touchedZones (touches : ZoneRecord → List GeoPoint → Bool)
    (dataset : List ZoneRecord) (polygon : List GeoPoint) : List ZoneRecord :=
  dataset.filter (fun z => touches z polygon)

/-- Modelled from the spec: the backend zone classifier is not among the
repository's files.  A polygon with fewer than 3 vertices or failing the
simple-polygon test is rejected as InvalidGeometry; otherwise the result is
the most restrictive zone touched by any part of the polygon together with
the touched zone ids.  The geometric tests `touches` and `simpleTest` are
parameters standing for the PostGIS spatial lookup. -/
def classify (touches : ZoneRecord → List GeoPoint → Bool)
    (simpleTest : List GeoPoint → Bool)
    (dataset : List ZoneRecord) (polygon : List GeoPoint) :
    Except GeometryError ClassifyResult :=
  if polygon.length < 3 then Except.error GeometryError.InvalidGeometry
  else if simpleTest polygon = false then Except.error GeometryError.InvalidGeometry
  else Except.ok
    { zone := mostRestrictive ((touchedZones touches dataset polygon).map ZoneRecord.zone_type)
    , touched_zone_ids := (touchedZones touches dataset polygon).map ZoneRecord.zone_id }

theorem maxZone_eq_red (a b : ZoneType) :
    maxZone a b = ZoneType.Red ↔ a = ZoneType.Red ∨ b = ZoneType.Red := by
  cases a <;> cases b <;> simp [maxZone, zoneRank]

theorem maxZone_eq_green (a b : ZoneType) :
    maxZone a b = ZoneType.Green ↔ a = ZoneType.Green ∧ b = ZoneType.Green := by
  cases a <;> cases b <;> simp [maxZone, zoneRank]

theorem foldl_maxZone_red :
    ∀ (l : List ZoneType) (acc : ZoneType),
      l.foldl maxZone acc = ZoneType.Red ↔ acc = ZoneType.Red ∨ ZoneType.Red ∈ l := by
  intro l
  induction l with
  | nil => intro acc; simp
  | cons z l ih =>
      intro acc
      rw [List.foldl_cons, ih (maxZone acc z), maxZone_eq_red]
      constructor
      · rintro ((h | h) | h)
        · exact Or.inl h
        · exact Or.inr (by simp [h])
        · exact Or.inr (List.mem_cons_of_mem z h)
      · rintro (h | h)
        · exact Or.inl (Or.inl h)
        · rcases List.mem_cons.mp h with h | h
          · exact Or.inl (Or.inr h.symm)
          · exact Or.inr h

theorem foldl_maxZone_green :
    ∀ (l : List ZoneType) (acc : ZoneType),
      l.foldl maxZone acc = ZoneType.Green
        ↔ acc = ZoneType.Green ∧ ∀ z ∈ l, z = ZoneType.Green := by
  intro l
  induction l with
  | nil => intro acc; simp
  | cons z l ih =>
      intro acc
      rw [List.foldl_cons, ih (maxZone acc z), maxZone_eq_green]
      constructor
      · rintro ⟨⟨ha, hz⟩, hall⟩
        refine ⟨ha, ?_⟩
        intro w hw
        rcases List.mem_cons.mp hw with h | h
        · rw [h]; exact hz
        · exact hall w h
      · rintro ⟨ha, hall⟩
        exact ⟨⟨ha, hall z (by simp)⟩, fun w hw => hall w (List.mem_cons_of_mem z hw)⟩

theorem zoneType_cases (z : ZoneType) :
    z = ZoneType.Green ∨ z = ZoneType.Yellow ∨ z = ZoneType.Red := by
  cases z <;> simp

/-- C9: on every validated simple polygon, classification returns the most
restrictive zone touched by any part of the polygon: Red when some touched
zone is Red, else Yellow when some touched zone is Yellow, else Green; the
touched zone ids are returned alongside. -/
theorem classify_most_restrictive (touches : ZoneRecord → List GeoPoint → Bool)
    (simpleTest : List GeoPoint → Bool)
    (dataset : List ZoneRecord) (polygon : List GeoPoint)
    (h3 : 3 ≤ polygon.length) (hs : simpleTest polygon = true) :
    ∃ r : ClassifyResult,
      classify touches simpleTest dataset polygon = Except.ok r
      ∧ r.touched_zone_ids = (touchedZones touches dataset polygon).map ZoneRecord.zone_id
      ∧ ((∃ z ∈ touchedZones touches dataset polygon, z.zone_type = ZoneType.Red) →
          r.zone = ZoneType.Red)
      ∧ ((∀ z ∈ touchedZones touches dataset polygon, z.zone_type ≠ ZoneType.Red) →
          (∃ z ∈ touchedZones touches dataset polygon, z.zone_type = ZoneType.Yellow) →
          r.zone = ZoneType.Yellow)
      ∧ ((∀ z ∈ touchedZones touches dataset polygon, z.zone_type = ZoneType.Green) →
          r.zone = ZoneType.Green) := by
  have hnot3 : ¬ (polygon.length < 3) := by omega
  have hok : classify touches simpleTest dataset polygon = Except.ok
      { zone := mostRestrictive ((touchedZones touches dataset polygon).map ZoneRecord.zone_type)
      , touched_zone_ids := (touchedZones touches dataset polygon).map ZoneRecord.zone_id } := by
    simp [classify, hnot3, hs]
  refine ⟨_, hok, rfl, ?_, ?_, ?_⟩
  · rintro ⟨z, hz, hred⟩
    apply (foldl_maxZone_red _ ZoneType.Green).mpr
    exact Or.inr (List.mem_map.mpr ⟨z, hz, hred⟩)
  · intro hnored ⟨z, hz, hyellow⟩
    set l := (touchedZones touches dataset polygon).map ZoneRecord.zone_type with hl
    have hnr : mostRestrictive l ≠ ZoneType.Red := by
      intro hc
      rcases (foldl_maxZone_red l ZoneType.Green).mp hc with h | h
      · exact absurd h (by simp)
      · rcases List.mem_map.mp h with ⟨w, hw, hwt⟩
        exact hnored w hw hwt
    have hng : mostRestrictive l ≠ ZoneType.Green := by
      intro hc
      have hall := ((foldl_maxZone_green l ZoneType.Green).mp hc).2
      have hmem : ZoneType.Yellow ∈ l := List.mem_map.mpr ⟨z, hz, hyellow⟩
      exact absurd (hall ZoneType.Yellow hmem) (by simp)
    rcases zoneType_cases (mostRestrictive l) with h | h | h
    · exact absurd h hng
    · exact h
    · exact absurd h hnr
  · intro hallgreen
    apply (foldl_maxZone_green _ ZoneType.Green).mpr
    refine ⟨rfl, ?_⟩
    intro w hw
    rcases List.mem_map.mp hw with ⟨z, hz, hzt⟩
    rw [← hzt]
    exact hallgreen z hz

/-- Concrete touch oracle for the C9 witness: everything touches. -/
def touchesW : ZoneRecord → List GeoPoint → Bool := fun _ _ => true

/-- Concrete simple-polygon test for the C9 witness. -/
def simpleTestW : List GeoPoint → Bool := fun _ => true

/-- Concrete zone dataset for the C9 witness: one Green and one Red zone. -/
def datasetW : List ZoneRecord :=
  [{ zone_id := 1, zone_type := ZoneType.Green }
  , { zone_id := 2, zone_type := ZoneType.Red }]

/-- Concrete triangle for the C9 witness. -/
def polygonW : List GeoPoint :=
  [{ latitude := 0, longitude := 0 }, { latitude := 0, longitude := 1 }
  , { latitude := 1, longitude := 0 }]

theorem classify_most_restrictive_witness :
    ∃ r : ClassifyResult,
      classify touchesW simpleTestW datasetW polygonW = Except.ok r
        ∧ r.zone = ZoneType.Red := by
  obtain ⟨r, hcl, _, hred, _, _⟩ :=
    classify_most_restrictive touchesW simpleTestW datasetW polygonW (by decide) (by rfl)
  refine ⟨r, hcl, hred ?_⟩
  exact ⟨{ zone_id := 2, zone_type := ZoneType.Red }, by decide, rfl⟩

end AeroSky
